import Mathlib

/-!
# Verification of the SPLATSTORM X splat-to-atlas asset pipeline

Shallow embedding of `tools/splat_to_atlas.py` (class `SplatAtlasGenerator`).

Modelling conventions:
* Python floats are modelled by exact rationals `ℚ`; `int(x)` (truncation
  toward zero) is `pyInt`.
* Python integer `//` and `%` on non-negative values are `Nat` division and
  modulo; a Python `ZeroDivisionError` is modelled by an `Except.error`.
* `math.exp` is irrational, so the Gaussian weight function is a parameter
  `pyexp : ℚ → ℚ` of the rasterizer; no claim below depends on its values.
* Mutation of the shared splat dictionaries is modelled by explicit state
  passing: the packer sorts the list of *indices* into the canonical splat
  list (Python sorts the list of aliased dict objects) and updates the
  canonical list at those indices.
-/

/-- A 3-component vector of rationals (a `numpy` length-3 array of the
source, with exact instead of floating arithmetic). -/
structure V3 where
  x : ℚ
  y : ℚ
  z : ℚ
deriving DecidableEq

/-- Component access `v[0] / v[1] / v[2]`. -/
def V3.get (v : V3) : Fin 3 → ℚ
  | 0 => v.x
  | 1 => v.y
  | 2 => v.z

/-- Python `int(q)`: truncation toward zero. -/
def pyInt (q : ℚ) : Int :=
  if 0 ≤ q then ⌊q⌋ else ⌈q⌉

/-- The six covariance values returned by
`_compute_covariance_from_scale_rot`: the upper triangle
`[cov[0,0], cov[0,1], cov[0,2], cov[1,1], cov[1,2], cov[2,2]]`. -/
structure Cov6 where
  xx : ℚ
  xy : ℚ
  xz : ℚ
  yy : ℚ
  yz : ℚ
  zz : ℚ
deriving DecidableEq

/-- A splat record as produced by `_convert_vertex_to_splat`.  The four
`atlas_*` keys are absent until `generate_texture_atlas` adds them, hence
`Option` fields defaulting to `none` (the source reads them with
`splat.get(key, 0)`). -/
structure Splat where
  pos : V3
  color : ℚ × ℚ × ℚ
  alpha : ℚ
  covariance : Cov6
  scale : ℚ × ℚ × ℚ
  rotation : ℚ × ℚ × ℚ × ℚ
  atlas_layer : Option Nat := none
  atlas_u : Option ℚ := none
  atlas_v : Option ℚ := none
  atlas_size : Option ℚ := none
deriving DecidableEq

instance : Inhabited Splat :=
  ⟨{ pos := ⟨0, 0, 0⟩, color := (0, 0, 0), alpha := 0,
     covariance := ⟨0, 0, 0, 0, 0, 0⟩, scale := (0, 0, 0),
     rotation := (0, 0, 0, 1) }⟩

/-- Python `max(splat['scale'])` over the 3-element scale list. -/
def maxScale (s : Splat) : ℚ :=
  max s.scale.1 (max s.scale.2.1 s.scale.2.2)

/-! ## Covariance Builder (`_compute_covariance_from_scale_rot`) -/

/-- A concrete 3×3 rational matrix (row-major), standing in for the
`numpy` 3×3 arrays of the source. -/
structure M3 where
  m00 : ℚ
  m01 : ℚ
  m02 : ℚ
  m10 : ℚ
  m11 : ℚ
  m12 : ℚ
  m20 : ℚ
  m21 : ℚ
  m22 : ℚ
deriving DecidableEq

/-- Matrix product `np.dot(A, B)` for 3×3 matrices. -/
def M3.mul (A B : M3) : M3 :=
  ⟨A.m00 * B.m00 + A.m01 * B.m10 + A.m02 * B.m20,
   A.m00 * B.m01 + A.m01 * B.m11 + A.m02 * B.m21,
   A.m00 * B.m02 + A.m01 * B.m12 + A.m02 * B.m22,
   A.m10 * B.m00 + A.m11 * B.m10 + A.m12 * B.m20,
   A.m10 * B.m01 + A.m11 * B.m11 + A.m12 * B.m21,
   A.m10 * B.m02 + A.m11 * B.m12 + A.m12 * B.m22,
   A.m20 * B.m00 + A.m21 * B.m10 + A.m22 * B.m20,
   A.m20 * B.m01 + A.m21 * B.m11 + A.m22 * B.m21,
   A.m20 * B.m02 + A.m21 * B.m12 + A.m22 * B.m22⟩

/-- Matrix transpose `A.T`. -/
def M3.transpose (A : M3) : M3 :=
  ⟨A.m00, A.m10, A.m20, A.m01, A.m11, A.m21, A.m02, A.m12, A.m22⟩

/-- Model of `np.diag(scale)`. -/
def diagScale (s0 s1 s2 : ℚ) : M3 :=
  ⟨s0, 0, 0, 0, s1, 0, 0, 0, s2⟩

/-- The quadratic form `xᵀ A x` of a 3×3 matrix at `(x, y, z)`. -/
def M3.qform (A : M3) (x y z : ℚ) : ℚ :=
  x * (A.m00 * x + A.m01 * y + A.m02 * z) +
  y * (A.m10 * x + A.m11 * y + A.m12 * z) +
  z * (A.m20 * x + A.m21 * y + A.m22 * z)

/-- The source's quaternion → rotation-matrix formula, applied to the raw
(not re-normalized) components.  This is the matrix the source builds when
the quaternion norm is `≤ 0` and normalization is skipped. -/
def quatToRot (qx qy qz qw : ℚ) : M3 :=
  ⟨1 - 2 * (qy * qy + qz * qz), 2 * (qx * qy - qz * qw), 2 * (qx * qz + qy * qw),
   2 * (qx * qy + qz * qw), 1 - 2 * (qx * qx + qz * qz), 2 * (qy * qz - qx * qw),
   2 * (qx * qz - qy * qw), 2 * (qy * qz + qx * qw), 1 - 2 * (qx * qx + qy * qy)⟩

/-- The source normalizes the quaternion by its Euclidean norm
`norm = sqrt(n2)` (when `norm > 0`) before applying the rotation-matrix
formula.  Every entry of that formula is a quadratic form in the quaternion
components, so with exact arithmetic each entry built from `q / sqrt(n2)`
equals the raw quadratic monomials divided by `n2`; we use that square-root
free form.  `norm > 0` holds exactly when `n2 > 0`. -/
def quatToRotNormalized (qx qy qz qw : ℚ) : M3 :=
  let n2 := qx * qx + qy * qy + qz * qz + qw * qw
  if 0 < n2 then
    ⟨1 - 2 * (qy * qy + qz * qz) / n2, 2 * (qx * qy - qz * qw) / n2,
     2 * (qx * qz + qy * qw) / n2,
     2 * (qx * qy + qz * qw) / n2, 1 - 2 * (qx * qx + qz * qz) / n2,
     2 * (qy * qz - qx * qw) / n2,
     2 * (qx * qz - qy * qw) / n2, 2 * (qy * qz + qx * qw) / n2,
     1 - 2 * (qx * qx + qy * qy) / n2⟩
  else
    quatToRot qx qy qz qw

/-- The upper triangle `[m00, m01, m02, m11, m12, m22]` of a 3×3 matrix,
as returned by `_compute_covariance_from_scale_rot`. -/
def upper6 (A : M3) : Cov6 :=
  ⟨A.m00, A.m01, A.m02, A.m11, A.m12, A.m22⟩

/-- Model of `_compute_covariance_from_scale_rot(scale, rot)`:
normalize the quaternion, build `R`, `S = diag(scale)`, `RS = R·S`,
`cov = RS·RSᵀ`, and return the upper triangle. -/
def compute_covariance_from_scale_rot (scale : ℚ × ℚ × ℚ)
    (rot : ℚ × ℚ × ℚ × ℚ) : Cov6 :=
  let R := quatToRotNormalized rot.1 rot.2.1 rot.2.2.1 rot.2.2.2
  let S := diagScale scale.1 scale.2.1 scale.2.2
  let RS := R.mul S
  let cov := RS.mul RS.transpose
  upper6 cov

/-- Symmetric 3×3 matrix reconstructed from upper-triangle values, the way
a consumer of the six exported covariance values rebuilds the matrix. -/
def symFromUpper (c : Cov6) : M3 :=
  ⟨c.xx, c.xy, c.xz, c.xy, c.yy, c.yz, c.xz, c.yz, c.zz⟩

/-! ## Atlas Packer (`generate_texture_atlas`, `_render_splat_to_atlas`) -/

/-- One RGBA pixel of a `uint8` numpy atlas buffer. -/
abbrev Pixel := Nat × Nat × Nat × Nat

/-- One atlas layer: an `atlas_size × atlas_size` row-major pixel grid
(`np.zeros((atlas_size, atlas_size, 4), dtype=np.uint8)`). -/
abbrev Buf := List (List Pixel)

/-- Numpy's cast of a Python int into a `uint8` cell: wrap modulo 256. -/
def toU8 (v : Int) : Nat :=
  (v % 256).toNat

/-- Model of `np.zeros((n, n, 4), dtype=np.uint8)`. -/
def zeroBuf (n : Nat) : Buf :=
  List.replicate n (List.replicate n (0, 0, 0, 0))

/-- Model of `splat_size = max(8, min(64, int(max(splat['scale']) * 100)))`. -/
def splatSizeOf (s : Splat) : Nat :=
  (max 8 (min 64 (pyInt (maxScale s * 100)))).toNat

/-- Model of `_render_splat_to_atlas(atlas, x, y, size, splat)`: rasterize an
isotropic Gaussian footprint into the cell at `(x, y)`.  `pyexp` stands for
`math.exp`; writes outside the layer are clipped by the source's bounds
check. -/
def render_splat_to_atlas (pyexp : ℚ → ℚ) (atlas_size : Nat) (atlas : Buf)
    (x y size : Nat) (s : Splat) : Buf :=
  let center := size / 2
  let sigma : ℚ := (size : ℚ) / 6
  (List.range size).foldl (fun (buf : Buf) (dy : Nat) =>
    (List.range size).foldl (fun (buf : Buf) (dx : Nat) =>
      let dist_sq : Int := ((dx : Int) - (center : Int)) ^ 2 +
        ((dy : Int) - (center : Int)) ^ 2
      let weight := pyexp (-(dist_sq : ℚ) / (2 * sigma ^ 2))
      let c0 := toU8 (pyInt (s.color.1 * 255))
      let c1 := toU8 (pyInt (s.color.2.1 * 255))
      let c2 := toU8 (pyInt (s.color.2.2 * 255))
      let a := toU8 (pyInt (s.alpha * weight * 255))
      let atlas_x := x + dx
      let atlas_y := y + dy
      if atlas_x < atlas_size ∧ atlas_y < atlas_size then
        buf.set atlas_y ((buf.getD atlas_y []).set atlas_x (c0, c1, c2, a))
      else
        buf) buf) atlas

/-- Result of `generate_texture_atlas`: the rendered layers, the canonical
splat list (with atlas assignments written into the shared records), and
the reported packed count. -/
structure GenResult where
  atlases : List Buf
  splats : List Splat
  packed_count : Nat

/-- The packing loop of `generate_texture_atlas`
(`for i, splat in enumerate(sorted_splats)`), over the enumerated pairs
`(i, j)` of sorted rank `i` and canonical index `j`.  State: atlas layers,
canonical splat list, packed count.  Python's `%` and `//` by zero raise
`ZeroDivisionError`, modelled by `Except.error`. -/
def packLoop (pyexp : ℚ → ℚ) (atlas_size atlas_layers : Nat) :
    List (Nat × Nat) → List Buf × List Splat × Nat →
    Except String (List Buf × List Splat × Nat)
  | [], st => .ok st
  | (i, j) :: rest, (atlases, cur, packed) =>
    if atlas_layers = 0 then .error "ZeroDivisionError" else
    let layer := i % atlas_layers
    let s := cur.getD j default
    let splat_size := splatSizeOf s
    let grid_size := atlas_size / splat_size
    if grid_size = 0 then .error "ZeroDivisionError" else
    let grid_x := (i / atlas_layers) % grid_size
    let grid_y := (i / atlas_layers / grid_size) % grid_size
    if grid_y * splat_size + splat_size ≤ atlas_size then
      let x := grid_x * splat_size
      let y := grid_y * splat_size
      let atlases' := atlases.set layer
        (render_splat_to_atlas pyexp atlas_size (atlases.getD layer []) x y splat_size s)
      let cur' := cur.set j
        { s with atlas_layer := some layer,
                 atlas_u := some ((x : ℚ) / (atlas_size : ℚ)),
                 atlas_v := some ((y : ℚ) / (atlas_size : ℚ)),
                 atlas_size := some ((splat_size : ℚ) / (atlas_size : ℚ)) }
      packLoop pyexp atlas_size atlas_layers rest (atlases', cur', packed + 1)
    else
      packLoop pyexp atlas_size atlas_layers rest (atlases, cur, packed)

/-- Model of `generate_texture_atlas()`: allocate the layers, sort the splats
descending by `max(scale)` (Python's stable `sorted(..., reverse=True)`;
the dict objects are aliased, so we sort canonical indices), and run the
packing loop. -/
def generate_texture_atlas (pyexp : ℚ → ℚ) (atlas_size atlas_layers : Nat)
    (splats : List Splat) : Except String GenResult :=
  let atlases := (List.range atlas_layers).map fun _ => zeroBuf atlas_size
  let order := List.mergeSort (List.range splats.length) fun a b =>
    decide (maxScale (splats.getD b default) ≤ maxScale (splats.getD a default))
  match packLoop pyexp atlas_size atlas_layers order.enum (atlases, splats, 0) with
  | .error e => .error e
  | .ok (atl, cur, packed) => .ok ⟨atl, cur, packed⟩

/-- Did an `Except`-modelled call complete without raising? -/
def exceptOk {ε α : Type} : Except ε α → Bool
  | .ok _ => true
  | .error _ => false

/-! ## Octree Builder (`build_octree_index`, `_build_octree_recursive`,
`_flatten_octree`) -/

/-- The recursive octree of `_build_octree_recursive`: a dict with
`is_leaf`, `splat_indices`/`children`, and a 6-float `bounds` list.
An absent octant child (`None`) is `Option.none`. -/
inductive OctNode where
  | leaf (splat_indices : List Nat) (bounds : List ℚ)
  | internal (children : List (Option OctNode)) (bounds : List ℚ)

/-- One entry of the flattened octree array built by `_flatten_octree`. -/
inductive FlatNode where
  | leaf (splat_count : Nat) (splat_indices : List Nat) (bounds : List ℚ)
  | internal (child_offsets : List Int) (bounds : List ℚ)
deriving DecidableEq

/-- The octant membership test of `_build_octree_recursive`: inclusive at
both ends on every axis. -/
def inOctant (p omin omax : V3) : Prop :=
  omin.x ≤ p.x ∧ p.x ≤ omax.x ∧
  omin.y ≤ p.y ∧ p.y ≤ omax.y ∧
  omin.z ≤ p.z ∧ p.z ≤ omax.z

instance (p omin omax : V3) : Decidable (inOctant p omin omax) := by
  unfold inOctant
  infer_instance

/-- The bounds of octant `octant ∈ 0..7` of the box `[minP, maxP]` with
center `c`: the source copies `min`/`max` and overwrites one side per set
bit (`& 1` on x, `& 2` on y, `& 4` on z). -/
def octantBounds (minP maxP c : V3) (octant : Nat) : V3 × V3 :=
  (⟨if octant &&& 1 ≠ 0 then c.x else minP.x,
    if octant &&& 2 ≠ 0 then c.y else minP.y,
    if octant &&& 4 ≠ 0 then c.z else minP.z⟩,
   ⟨if octant &&& 1 ≠ 0 then maxP.x else c.x,
    if octant &&& 2 ≠ 0 then maxP.y else c.y,
    if octant &&& 4 ≠ 0 then maxP.z else c.z⟩)

/-- The 6-float bounds list `[min_x, min_y, min_z, max_x, max_y, max_z]`
stored in every node. -/
def boundsList (minP maxP : V3) : List ℚ :=
  [minP.x, minP.y, minP.z, maxP.x, maxP.y, maxP.z]

/-- The candidate index set of one octant: the splats of the node whose
position passes the inclusive bounds test. -/
def octantCandidates (positions : List V3) (splat_indices : List Nat)
    (omin omax : V3) : List Nat :=
  splat_indices.filter fun idx =>
    decide (inOctant (positions.getD idx ⟨0, 0, 0⟩) omin omax)

/-- The spatial center `(min_pos + max_pos) / 2` of a node's box. -/
def nodeCenter (minP maxP : V3) : V3 :=
  ⟨(minP.x + maxP.x) / 2, (minP.y + maxP.y) / 2, (minP.z + maxP.z) / 2⟩

/-- Model of `_build_octree_recursive(splat_indices, min_pos, max_pos, depth)`.
The source recurses with `depth + 1` and stops at
`depth >= self.max_octree_depth`; we recurse structurally on the remaining
depth `max_octree_depth - depth` (so `remaining = 0` is exactly
`depth >= max_octree_depth`). -/
def buildOctreeRec (positions : List V3) (splat_indices : List Nat)
    (minP maxP : V3) : Nat → OctNode
  | 0 => .leaf (splat_indices.take 8) (boundsList minP maxP)
  | remaining + 1 =>
    if splat_indices.length ≤ 8 then
      .leaf (splat_indices.take 8) (boundsList minP maxP)
    else
      let c := nodeCenter minP maxP
      let children := (List.range 8).map fun octant =>
        let ob := octantBounds minP maxP c octant
        let octant_splats := octantCandidates positions splat_indices ob.1 ob.2
        if octant_splats.isEmpty then
          none
        else
          some (buildOctreeRec positions octant_splats ob.1 ob.2 remaining)
      .internal children (boundsList minP maxP)

/-- Well-formedness of a built octree over `n` splats: every leaf holds at
most 8 indices, all smaller than `n`, and every internal node has exactly
8 child slots of well-formed children.  `_build_octree_recursive`
establishes this (leaves truncate with `[:8]`, octant candidate sets are
subsets of the parent's set, and the children list has one slot per
octant). -/
inductive OctWF (n : Nat) : OctNode → Prop where
  | leaf (idxs : List Nat) (b : List ℚ) (hlen : idxs.length ≤ 8)
      (hidx : ∀ i ∈ idxs, i < n) : OctWF n (.leaf idxs b)
  | internal (cs : List (Option OctNode)) (b : List ℚ) (hlen : cs.length = 8)
      (hch : ∀ c ∈ cs, ∀ t, c = some t → OctWF n t) : OctWF n (.internal cs b)

/-- The per-entry invariant of the flattened array: a leaf stores a count
of at most 8 over a fixed 8-slot index array zero-padded beyond the count,
with every stored index below the splat count `n`; an internal node stores
exactly 8 child offsets, each `-1` or a valid array index strictly greater
than the node's own index `selfIdx`. -/
def flatNodeOk (n selfIdx len : Nat) : FlatNode → Prop
  | .leaf c idxs _ =>
      c ≤ 8 ∧ idxs.length = 8 ∧ idxs.drop c = List.replicate (8 - c) 0 ∧
      ∀ i ∈ idxs.take c, i < n
  | .internal offs _ =>
      offs.length = 8 ∧
      ∀ o ∈ offs, o = -1 ∨ ((selfIdx : Int) < o ∧ o < (len : Int))

/-- A flattened leaf's stored indices are valid indices into the canonical
splat list of length `n` (internal nodes carry no splat indices). -/
def leafIdxBound (n : Nat) : FlatNode → Prop
  | .leaf c idxs _ => ∀ i ∈ idxs.take c, i < n
  | .internal _ _ => True

/-- Componentwise minimum (one reduction step of `np.min(..., axis=0)`). -/
def vmin (a b : V3) : V3 :=
  ⟨min a.x b.x, min a.y b.y, min a.z b.z⟩

/-- Componentwise maximum (one reduction step of `np.max(..., axis=0)`). -/
def vmax (a b : V3) : V3 :=
  ⟨max a.x b.x, max a.y b.y, max a.z b.z⟩

/-- The root bounds computed by `build_octree_index`: the axis-aligned
bounding box of all positions, then a cube around its center whose edge is
`np.max(max_pos - min_pos) * 1.1` (the float literal `1.1` is modelled by
the exact rational `11/10`). -/
def octreeRootBounds (positions : List V3) : Option (V3 × V3) :=
  match positions with
  | [] => none
  | p :: rest =>
    let min_pos := rest.foldl vmin p
    let max_pos := rest.foldl vmax p
    let center : V3 := ⟨(min_pos.x + max_pos.x) / 2, (min_pos.y + max_pos.y) / 2,
                        (min_pos.z + max_pos.z) / 2⟩
    let size : ℚ := max (max_pos.x - min_pos.x)
      (max (max_pos.y - min_pos.y) (max_pos.z - min_pos.z)) * (11 / 10)
    some (⟨center.x - size / 2, center.y - size / 2, center.z - size / 2⟩,
          ⟨center.x + size / 2, center.y + size / 2, center.z + size / 2⟩)

mutual

/-- Model of `_flatten_octree(node, array)`: append the node (pre-order), then its
children, back-patching the internal node's 8 child offsets with each
child's flattened index or `-1`.  Returns the grown array and the node's
index. -/
def flattenOctree (node : OctNode) (arr : List FlatNode) : List FlatNode × Int :=
  match node with
  | .leaf idxs b =>
      (arr ++ [.leaf idxs.length (idxs ++ List.replicate (8 - idxs.length) 0) b],
       (arr.length : Int))
  | .internal cs b =>
      let node_index := arr.length
      let st := flattenChildren cs (arr ++ [.internal (List.replicate 8 0) b])
      (st.1.set node_index (.internal st.2 b), (node_index : Int))

/-- The child loop of `_flatten_octree`: flatten present children in order,
collecting each child's index, and `-1` for absent ones. -/
def flattenChildren (cs : List (Option OctNode)) (arr : List FlatNode) :
    List FlatNode × List Int :=
  match cs with
  | [] => (arr, [])
  | none :: rest =>
      let st := flattenChildren rest arr
      (st.1, (-1 : Int) :: st.2)
  | some c :: rest =>
      let st1 := flattenOctree c arr
      let st2 := flattenChildren rest st1.1
      (st2.1, st1.2 :: st2.2)

end

/-- Model of `build_octree_index()`: `None` on an empty splat list, otherwise the
expanded root bounds, the recursive build over all indices, and the
pre-order flattening into a linear array. -/
def build_octree_index (max_octree_depth : Nat) (splats : List Splat) :
    Option (List FlatNode) :=
  match octreeRootBounds (splats.map Splat.pos) with
  | none => none
  | some (min_pos, max_pos) =>
    let root := buildOctreeRec (splats.map Splat.pos)
      (List.range splats.length) min_pos max_pos max_octree_depth
    some (flattenOctree root []).1

/-! ## Asset Exporter (`export_assets`) -/

/-- One `struct.pack` item of a binary output stream: `'I'`, `'i'`, `'f'`
are 4 bytes, `'B'` is 1 byte.  Float payloads carry the exact rational the
source would convert to float32. -/
inductive PackVal where
  | u32 (v : Nat)
  | i32 (v : Int)
  | f32 (v : ℚ)
  | u8 (v : Nat)
deriving DecidableEq

/-- Byte width of one pack item. -/
def packSize : PackVal → Nat
  | .u8 _ => 1
  | _ => 4

/-- Total byte length of a pack stream. -/
def byteLen (l : List PackVal) : Nat :=
  (l.map packSize).sum

/-- Model of `struct.pack('fff', *splat['pos'])`. -/
def posSeg (s : Splat) : List PackVal :=
  [.f32 s.pos.x, .f32 s.pos.y, .f32 s.pos.z]

/-- Model of `struct.pack('f', 0)` after the position. -/
def padSeg4 : List PackVal :=
  [.f32 0]

/-- Model of `struct.pack('ffffff', *splat['covariance'])`. -/
def covSeg (s : Splat) : List PackVal :=
  [.f32 s.covariance.xx, .f32 s.covariance.xy, .f32 s.covariance.xz,
   .f32 s.covariance.yy, .f32 s.covariance.yz, .f32 s.covariance.zz]

/-- Model of `struct.pack('ff', 0, 0)` after the covariance. -/
def padSeg8 : List PackVal :=
  [.f32 0, .f32 0]

/-- Model of `struct.pack('ffff', *splat['color'], splat['alpha'])`. -/
def colorAlphaSeg (s : Splat) : List PackVal :=
  [.f32 s.color.1, .f32 s.color.2.1, .f32 s.color.2.2, .f32 s.alpha]

/-- Model of `struct.pack('ffff', atlas_u, atlas_v, atlas_size, atlas_layer)`, each
read with `splat.get(key, 0)`. -/
def atlasSeg (s : Splat) : List PackVal :=
  [.f32 (s.atlas_u.getD 0), .f32 (s.atlas_v.getD 0), .f32 (s.atlas_size.getD 0),
   .f32 ((s.atlas_layer.getD 0 : Nat) : ℚ)]

/-- One per-splat record of `scene.splat`, in the source's write order. -/
def splatRecord (s : Splat) : List PackVal :=
  posSeg s ++ padSeg4 ++ covSeg s ++ padSeg8 ++ colorAlphaSeg s ++ atlasSeg s

/-- The full `scene.splat` stream: 4-byte splat count, the 4-byte magic
`0x53504C54` (`'SPLT'`), then the per-splat records in list order. -/
def sceneSplatBytes (splats : List Splat) : List PackVal :=
  .u32 splats.length :: .u32 0x53504C54 :: (splats.map splatRecord).flatten

/-- One node of `octree.idx`: leaf flag + count (or internal flag +
padding), 8 indices (unsigned) or offsets (signed), then 6 bounds floats. -/
def flatNodeBytes : FlatNode → List PackVal
  | .leaf c idxs b => .u32 1 :: .u32 c :: (idxs.map PackVal.u32 ++ b.map PackVal.f32)
  | .internal offs b => .u32 0 :: .u32 0 :: (offs.map PackVal.i32 ++ b.map PackVal.f32)

/-- The `octree.idx` stream: node count, max depth, then the nodes. -/
def octreeBytes (max_octree_depth : Nat) (arr : List FlatNode) : List PackVal :=
  .u32 arr.length :: .u32 max_octree_depth :: (arr.map flatNodeBytes).flatten

/-- One `atlas_t{i}.raw` file: the layer's pixels row-major, 4 bytes each. -/
def bufBytes (atlas_size : Nat) (buf : Buf) : List PackVal :=
  (List.range atlas_size).flatMap fun y =>
    (List.range atlas_size).flatMap fun x =>
      let p := (buf.getD y []).getD x (0, 0, 0, 0)
      [.u8 p.1, .u8 p.2.1, .u8 p.2.2.1, .u8 p.2.2.2]

/-- The `metadata.json` document. -/
structure Metadata where
  splat_count : Nat
  atlas_size : Nat
  atlas_layers : Nat
  octree_nodes : Nat
  octree_depth : Nat
deriving DecidableEq

/-- The files written by one `export_assets` run. -/
structure ExportOutput where
  atlasFiles : List (List PackVal)
  octreeFile : Option (List PackVal)
  splatFile : List PackVal
  metadataFile : Metadata

/-- Model of `export_assets(output_dir)`: generate and write the atlas layers, build
and (when the octree is truthy) write `octree.idx`, write `scene.splat`,
and write `metadata.json`. -/
def export_assets (pyexp : ℚ → ℚ)
    (atlas_size atlas_layers max_octree_depth : Nat) (splats : List Splat) :
    Except String ExportOutput :=
  match generate_texture_atlas pyexp atlas_size atlas_layers splats with
  | .error e => .error e
  | .ok g =>
    let atlasFiles := g.atlases.map (bufBytes atlas_size)
    let octree := build_octree_index max_octree_depth g.splats
    let octreeFile := match octree with
      | some arr => if arr.isEmpty then none else some (octreeBytes max_octree_depth arr)
      | none => none
    .ok { atlasFiles := atlasFiles,
          octreeFile := octreeFile,
          splatFile := sceneSplatBytes g.splats,
          metadataFile :=
            { splat_count := g.splats.length,
              atlas_size := atlas_size,
              atlas_layers := atlas_layers,
              octree_nodes := match octree with
                | some arr => arr.length
                | none => 0,
              octree_depth := max_octree_depth } }

/-- The non-atlas fields of two splat records agree (the packer only ever
writes the four `atlas_*` keys). -/
def sameCore (s t : Splat) : Prop :=
  s.pos = t.pos ∧ s.color = t.color ∧ s.alpha = t.alpha ∧
  s.covariance = t.covariance ∧ s.scale = t.scale ∧ s.rotation = t.rotation

/-- Claimed property refuted for C3: some run of the Atlas Packer
completes and still leaves a nonzero fraction of splats unplaced. -/
def atlasPackerUnderpacks : Prop :=
  ∃ (pyexp : ℚ → ℚ) (atlas_size atlas_layers : Nat) (splats : List Splat)
    (g : GenResult),
    generate_texture_atlas pyexp atlas_size atlas_layers splats = .ok g ∧
    g.packed_count < splats.length

/-! ## Theorems -/

lemma eight_le_splatSizeOf (s : Splat) : 8 ≤ splatSizeOf s := by
  unfold splatSizeOf
  have h : (8 : Int) ≤ max 8 (min 64 (pyInt (maxScale s * 100))) := le_max_left _ _
  have h8 := Int.toNat_le_toNat h
  exact h8

lemma splatSizeOf_le_64 (s : Splat) : splatSizeOf s ≤ 64 := by
  unfold splatSizeOf
  have h : max 8 (min 64 (pyInt (maxScale s * 100))) ≤ 64 :=
    max_le (by norm_num) (min_le_left _ _)
  exact Int.toNat_le.mpr h

lemma packCondition_holds (atlas_size i atlas_layers : Nat) (s : Splat)
    (hgs : atlas_size / splatSizeOf s ≠ 0) :
    i / atlas_layers / (atlas_size / splatSizeOf s) % (atlas_size / splatSizeOf s) *
      splatSizeOf s + splatSizeOf s ≤ atlas_size := by
  have hlt : i / atlas_layers / (atlas_size / splatSizeOf s) %
      (atlas_size / splatSizeOf s) < atlas_size / splatSizeOf s :=
    Nat.mod_lt _ (Nat.pos_of_ne_zero hgs)
  have h1 : (i / atlas_layers / (atlas_size / splatSizeOf s) %
        (atlas_size / splatSizeOf s) + 1) * splatSizeOf s ≤
      (atlas_size / splatSizeOf s) * splatSizeOf s :=
    Nat.mul_le_mul_right _ (Nat.succ_le_of_lt hlt)
  have h2 : (atlas_size / splatSizeOf s) * splatSizeOf s ≤ atlas_size :=
    Nat.div_mul_le_self _ _
  have h3 : i / atlas_layers / (atlas_size / splatSizeOf s) %
        (atlas_size / splatSizeOf s) * splatSizeOf s + splatSizeOf s =
      (i / atlas_layers / (atlas_size / splatSizeOf s) %
        (atlas_size / splatSizeOf s) + 1) * splatSizeOf s := by
    ring
  rw [h3]
  exact le_trans h1 h2

lemma packLoop_packed (pyexp : ℚ → ℚ) (atlas_size atlas_layers : Nat) :
    ∀ (pairs : List (Nat × Nat)) (atlases : List Buf) (cur : List Splat)
      (packed : Nat) (r : List Buf × List Splat × Nat),
    packLoop pyexp atlas_size atlas_layers pairs (atlases, cur, packed) = .ok r →
    r.2.2 = packed + pairs.length := by
  intro pairs
  induction pairs with
  | nil =>
    intro atlases cur packed r h
    simp only [packLoop] at h
    cases h
    simp
  | cons hd tl ih =>
    obtain ⟨i, j⟩ := hd
    intro atlases cur packed r h
    simp only [packLoop] at h
    split at h
    · exact Except.noConfusion h
    · split at h
      · exact Except.noConfusion h
      · rename_i h0 hgs
        split at h
        · have := ih _ _ _ _ h
          simp only [List.length_cons]
          omega
        · rename_i hcond
          exact absurd (packCondition_holds atlas_size i atlas_layers
            (cur.getD j default) hgs) hcond

lemma packLoop_ne_error (pyexp : ℚ → ℚ) (atlas_size atlas_layers : Nat)
    (h1 : 1 ≤ atlas_layers) (h64 : 64 ≤ atlas_size) :
    ∀ (pairs : List (Nat × Nat)) (st : List Buf × List Splat × Nat) (e : String),
    packLoop pyexp atlas_size atlas_layers pairs st ≠ .error e := by
  intro pairs
  induction pairs with
  | nil =>
    intro st e h
    simp [packLoop] at h
  | cons hd tl ih =>
    obtain ⟨i, j⟩ := hd
    intro st e h
    obtain ⟨atlases, cur, packed⟩ := st
    have h0 : atlas_layers ≠ 0 := by omega
    have hgs : atlas_size / splatSizeOf (cur.getD j default) ≠ 0 := by
      have hle : splatSizeOf (cur.getD j default) ≤ atlas_size :=
        le_trans (splatSizeOf_le_64 _) h64
      have hpos : 0 < splatSizeOf (cur.getD j default) := by
        have := eight_le_splatSizeOf (cur.getD j default)
        omega
      have := (Nat.one_le_div_iff hpos).mpr hle
      omega
    simp only [packLoop, if_neg h0, if_neg hgs] at h
    split at h
    · exact ih _ _ h
    · exact ih _ _ h

lemma sameCore_refl (s : Splat) : sameCore s s :=
  ⟨rfl, rfl, rfl, rfl, rfl, rfl⟩

lemma sameCore_trans {s t u : Splat} (h1 : sameCore s t) (h2 : sameCore t u) :
    sameCore s u := by
  obtain ⟨a1, b1, c1, d1, e1, f1⟩ := h1
  obtain ⟨a2, b2, c2, d2, e2, f2⟩ := h2
  exact ⟨a1.trans a2, b1.trans b2, c1.trans c2, d1.trans d2, e1.trans e2, f1.trans f2⟩

lemma sameCore_set_atlas (cur : List Splat) (j : Nat) (s' : Splat)
    (hs' : sameCore s' (cur.getD j default)) (k : Nat) :
    sameCore ((cur.set j s').getD k default) (cur.getD k default) := by
  by_cases hk : j = k
  · subst hk
    by_cases hj : j < cur.length
    · simp only [List.getD_eq_getElem?_getD, List.getElem?_set, eq_self_iff_true,
        if_true, hj, Option.getD_some]
      simpa [List.getD_eq_getElem?_getD] using hs'
    · rw [List.set_eq_of_length_le (by omega)]
      exact sameCore_refl _
  · simp only [List.getD_eq_getElem?_getD, List.getElem?_set_ne hk]
    exact sameCore_refl _

lemma sameCore_atlas_update (s : Splat) (l : Option Nat) (u v sz : Option ℚ) :
    sameCore
      { s with atlas_layer := l, atlas_u := u, atlas_v := v, atlas_size := sz }
      s :=
  ⟨rfl, rfl, rfl, rfl, rfl, rfl⟩

lemma packLoop_core (pyexp : ℚ → ℚ) (atlas_size atlas_layers : Nat) :
    ∀ (pairs : List (Nat × Nat)) (atlases : List Buf) (cur : List Splat)
      (packed : Nat) (r : List Buf × List Splat × Nat),
    packLoop pyexp atlas_size atlas_layers pairs (atlases, cur, packed) = .ok r →
    r.2.1.length = cur.length ∧
      ∀ k : Nat, sameCore (r.2.1.getD k default) (cur.getD k default) := by
  intro pairs
  induction pairs with
  | nil =>
    intro atlases cur packed r h
    simp only [packLoop] at h
    cases h
    exact ⟨rfl, fun k => sameCore_refl _⟩
  | cons hd tl ih =>
    obtain ⟨i, j⟩ := hd
    intro atlases cur packed r h
    simp only [packLoop] at h
    split at h
    · exact Except.noConfusion h
    · split at h
      · exact Except.noConfusion h
      · split at h
        · have hstep := ih _ _ _ _ h
          refine ⟨by rw [hstep.1, List.length_set], fun k => ?_⟩
          refine sameCore_trans (hstep.2 k) ?_
          exact sameCore_set_atlas cur j _ (sameCore_atlas_update _ _ _ _ _) k
        · exact ih _ _ _ _ h

lemma generate_ok_packed (pyexp : ℚ → ℚ) (atlas_size atlas_layers : Nat)
    (splats : List Splat) (g : GenResult)
    (h : generate_texture_atlas pyexp atlas_size atlas_layers splats = .ok g) :
    g.packed_count = splats.length := by
  simp only [generate_texture_atlas] at h
  split at h
  · exact Except.noConfusion h
  · rename_i st a cur packed heq
    cases h
    have := packLoop_packed pyexp atlas_size atlas_layers _ _ _ _ _ heq
    simpa using this

lemma generate_ok_core (pyexp : ℚ → ℚ) (atlas_size atlas_layers : Nat)
    (splats : List Splat) (g : GenResult)
    (h : generate_texture_atlas pyexp atlas_size atlas_layers splats = .ok g) :
    g.splats.length = splats.length ∧
      ∀ k : Nat, sameCore (g.splats.getD k default) (splats.getD k default) := by
  simp only [generate_texture_atlas] at h
  split at h
  · exact Except.noConfusion h
  · rename_i st a cur packed heq
    cases h
    have := packLoop_core pyexp atlas_size atlas_layers _ _ _ _ _ heq
    simpa using this

lemma flatNodeOk_mono {n selfIdx len len' : Nat} (h : len ≤ len') {fn : FlatNode}
    (hok : flatNodeOk n selfIdx len fn) : flatNodeOk n selfIdx len' fn := by
  cases fn with
  | leaf c idxs b => exact hok
  | internal offs b =>
    obtain ⟨h8, ho⟩ := hok
    refine ⟨h8, fun o hmem => ?_⟩
    rcases ho o hmem with h1 | ⟨h2, h3⟩
    · exact Or.inl h1
    · exact Or.inr ⟨h2, lt_of_lt_of_le h3 (by exact_mod_cast h)⟩

lemma getD_eq_of_take_eq {l l' : List FlatNode} {k j : Nat} (d : FlatNode)
    (h : l'.take k = l) (hj : j < k) : l'.getD j d = l.getD j d := by
  rw [← h]
  simp only [List.getD_eq_getElem?_getD, List.getElem?_take_of_lt hj]

mutual

theorem flattenOctree_spec (node : OctNode) (arr : List FlatNode) (n : Nat)
    (hwf : OctWF n node) :
    (flattenOctree node arr).2 = (arr.length : Int) ∧
    arr.length < (flattenOctree node arr).1.length ∧
    (flattenOctree node arr).1.take arr.length = arr ∧
    ∀ j, arr.length ≤ j → j < (flattenOctree node arr).1.length →
      flatNodeOk n j (flattenOctree node arr).1.length
        ((flattenOctree node arr).1.getD j (.leaf 0 [] [])) := by
  cases hwf with
  | leaf idxs b hlen hidx =>
    simp only [flattenOctree]
    refine ⟨by trivial, by simp, List.take_left arr _, fun j hj1 hj2 => ?_⟩
    have hj : j = arr.length := by
      simp only [List.length_append, List.length_cons, List.length_nil] at hj2
      omega
    subst hj
    have hget : (arr ++ [FlatNode.leaf idxs.length
        (idxs ++ List.replicate (8 - idxs.length) 0) b]).getD arr.length
        (.leaf 0 [] []) = .leaf idxs.length
        (idxs ++ List.replicate (8 - idxs.length) 0) b := by
      simp [List.getD_eq_getElem?_getD]
    rw [hget]
    refine ⟨hlen, by simp; omega, ?_, ?_⟩
    · rw [List.drop_left]
    · rw [List.take_left]
      exact hidx
  | internal cs b hlen hch =>
    have ihc := flattenChildren_spec cs
      (arr ++ [.internal (List.replicate 8 0) b]) n hch
    obtain ⟨hle, htake, holen, hoffs, hnodes⟩ := ihc
    simp only [flattenOctree]
    have hAlen : (arr ++ [FlatNode.internal (List.replicate 8 0) b]).length =
        arr.length + 1 := by simp
    rw [hAlen] at hle hoffs hnodes
    refine ⟨by trivial, ?_, ?_, ?_⟩
    · simp only [List.length_set]
      omega
    · rw [List.set_take]
      rw [List.set_eq_of_length_le]
      · have h1 : (flattenChildren cs
            (arr ++ [FlatNode.internal (List.replicate 8 0) b])).1.take arr.length =
            ((flattenChildren cs
              (arr ++ [FlatNode.internal (List.replicate 8 0) b])).1.take
                (arr ++ [FlatNode.internal (List.replicate 8 0) b]).length).take
              arr.length := by
          rw [List.take_take]
          congr 1
          simp
        rw [h1, htake, List.take_left]
      · simp
    · intro j hj1 hj2
      simp only [List.length_set] at hj2 ⊢
      by_cases hje : j = arr.length
      · subst hje
        have hget : ((flattenChildren cs
            (arr ++ [FlatNode.internal (List.replicate 8 0) b])).1.set arr.length
            (FlatNode.internal
              (flattenChildren cs
                (arr ++ [FlatNode.internal (List.replicate 8 0) b])).2 b)).getD
            arr.length (.leaf 0 [] []) =
            FlatNode.internal
              (flattenChildren cs
                (arr ++ [FlatNode.internal (List.replicate 8 0) b])).2 b := by
          simp only [List.getD_eq_getElem?_getD]
          rw [List.getElem?_set_self (by omega)]
          rfl
        rw [hget]
        refine ⟨by rw [holen, hlen], fun o hmem => ?_⟩
        rcases hoffs o hmem with h1 | ⟨h2, h3⟩
        · exact Or.inl h1
        · refine Or.inr ⟨?_, ?_⟩
          · omega
          · exact h3
      · have hget : ((flattenChildren cs
            (arr ++ [FlatNode.internal (List.replicate 8 0) b])).1.set arr.length
            (FlatNode.internal
              (flattenChildren cs
                (arr ++ [FlatNode.internal (List.replicate 8 0) b])).2 b)).getD j
            (.leaf 0 [] []) =
            (flattenChildren cs
              (arr ++ [FlatNode.internal (List.replicate 8 0) b])).1.getD j
              (.leaf 0 [] []) := by
          simp only [List.getD_eq_getElem?_getD]
          rw [List.getElem?_set_ne (by omega)]
        rw [hget]
        exact hnodes j (by omega) hj2

theorem flattenChildren_spec (cs : List (Option OctNode)) (arr : List FlatNode)
    (n : Nat) (hwf : ∀ c ∈ cs, ∀ t, c = some t → OctWF n t) :
    arr.length ≤ (flattenChildren cs arr).1.length ∧
    (flattenChildren cs arr).1.take arr.length = arr ∧
    (flattenChildren cs arr).2.length = cs.length ∧
    (∀ o ∈ (flattenChildren cs arr).2, o = -1 ∨
      ((arr.length : Int) ≤ o ∧ o < ((flattenChildren cs arr).1.length : Int))) ∧
    ∀ j, arr.length ≤ j → j < (flattenChildren cs arr).1.length →
      flatNodeOk n j (flattenChildren cs arr).1.length
        ((flattenChildren cs arr).1.getD j (.leaf 0 [] [])) := by
  match cs with
  | [] =>
    simp only [flattenChildren]
    refine ⟨le_refl _, List.take_length arr, rfl, by simp, fun j hj1 hj2 => ?_⟩
    omega
  | none :: rest =>
    have ih := flattenChildren_spec rest arr n
      (fun c hc t hct => hwf c (List.mem_cons_of_mem _ hc) t hct)
    obtain ⟨h1, h2, h3, h4, h5⟩ := ih
    simp only [flattenChildren]
    refine ⟨h1, h2, by simp [h3], fun o hmem => ?_, h5⟩
    rcases List.mem_cons.mp hmem with h | h
    · exact Or.inl h
    · exact h4 o h
  | some c :: rest =>
    have ih1 := flattenOctree_spec c arr n
      (hwf (some c) (List.mem_cons_self _ _) c rfl)
    obtain ⟨hi1, hi2, hi3, hi4⟩ := ih1
    have ih2 := flattenChildren_spec rest (flattenOctree c arr).1 n
      (fun d hd t hdt => hwf d (List.mem_cons_of_mem _ hd) t hdt)
    obtain ⟨hj1, hj2, hj3, hj4, hj5⟩ := ih2
    simp only [flattenChildren]
    refine ⟨by omega, ?_, by simp [hj3], fun o hmem => ?_, ?_⟩
    · have ht : (flattenChildren rest (flattenOctree c arr).1).1.take arr.length =
          ((flattenChildren rest (flattenOctree c arr).1).1.take
            (flattenOctree c arr).1.length).take arr.length := by
        rw [List.take_take]
        congr 1
        omega
      rw [ht, hj2, hi3]
    · rcases List.mem_cons.mp hmem with h | h
      · subst h
        rw [hi1]
        refine Or.inr ⟨le_refl _, ?_⟩
        have : arr.length < (flattenOctree c arr).1.length := hi2
        have h2 : (flattenOctree c arr).1.length ≤
            (flattenChildren rest (flattenOctree c arr).1).1.length := hj1
        exact_mod_cast lt_of_lt_of_le this h2
      · rcases hj4 o h with hh | ⟨hh1, hh2⟩
        · exact Or.inl hh
        · refine Or.inr ⟨?_, hh2⟩
          have : arr.length ≤ (flattenOctree c arr).1.length := le_of_lt hi2
          calc ((arr.length : Int)) ≤ ((flattenOctree c arr).1.length : Int) := by
                exact_mod_cast this
            _ ≤ o := hh1
    · intro j hja hjb
      by_cases hcase : j < (flattenOctree c arr).1.length
      · have hgd : (flattenChildren rest (flattenOctree c arr).1).1.getD j
            (.leaf 0 [] []) = (flattenOctree c arr).1.getD j (.leaf 0 [] []) :=
          getD_eq_of_take_eq _ hj2 hcase
        rw [hgd]
        exact flatNodeOk_mono hj1 (hi4 j hja hcase)
      · exact hj5 j (by omega) hjb

end

lemma symFromUpper_mul_transpose (M : M3) :
    symFromUpper (upper6 (M.mul M.transpose)) = M.mul M.transpose := by
  cases M
  simp only [M3.mul, M3.transpose, upper6, symFromUpper, M3.mk.injEq]
  refine ⟨by ring, by ring, by ring, by ring, by ring, by ring, by ring, by ring, by ring⟩

lemma mul_transpose_symm (M : M3) :
    (M.mul M.transpose).transpose = M.mul M.transpose := by
  cases M
  simp only [M3.mul, M3.transpose, M3.mk.injEq]
  refine ⟨by ring, by ring, by ring, by ring, by ring, by ring, by ring, by ring, by ring⟩

lemma qform_mul_transpose_nonneg (M : M3) (x y z : ℚ) :
    0 ≤ (M.mul M.transpose).qform x y z := by
  cases M with
  | mk m00 m01 m02 m10 m11 m12 m20 m21 m22 =>
    have h : (M3.mul ⟨m00, m01, m02, m10, m11, m12, m20, m21, m22⟩
        (M3.transpose ⟨m00, m01, m02, m10, m11, m12, m20, m21, m22⟩)).qform x y z =
        (m00 * x + m10 * y + m20 * z) ^ 2 +
        (m01 * x + m11 * y + m21 * z) ^ 2 +
        (m02 * x + m12 * y + m22 * z) ^ 2 := by
      simp only [M3.mul, M3.transpose, M3.qform]
      ring
    rw [h]
    positivity

/-- C4: for every scale and quaternion input, the six values returned by
the Covariance Builder are the upper triangle of the symmetric matrix
`RS·(RS)ᵀ` (`R` the rotation matrix of the normalized quaternion,
`S = diag(scale)`); the 3×3 matrix reconstructed from them equals
`RS·(RS)ᵀ`, is symmetric, and is positive semidefinite. -/
theorem covariance_is_upper_triangle_symm_psd (scale : ℚ × ℚ × ℚ)
    (rot : ℚ × ℚ × ℚ × ℚ) :
    symFromUpper (compute_covariance_from_scale_rot scale rot) =
      ((quatToRotNormalized rot.1 rot.2.1 rot.2.2.1 rot.2.2.2).mul
        (diagScale scale.1 scale.2.1 scale.2.2)).mul
      ((quatToRotNormalized rot.1 rot.2.1 rot.2.2.1 rot.2.2.2).mul
        (diagScale scale.1 scale.2.1 scale.2.2)).transpose ∧
    (symFromUpper (compute_covariance_from_scale_rot scale rot)).transpose =
      symFromUpper (compute_covariance_from_scale_rot scale rot) ∧
    ∀ x y z : ℚ,
      0 ≤ (symFromUpper (compute_covariance_from_scale_rot scale rot)).qform x y z := by
  have hrw : symFromUpper (compute_covariance_from_scale_rot scale rot) =
      ((quatToRotNormalized rot.1 rot.2.1 rot.2.2.1 rot.2.2.2).mul
        (diagScale scale.1 scale.2.1 scale.2.2)).mul
      ((quatToRotNormalized rot.1 rot.2.1 rot.2.2.1 rot.2.2.2).mul
        (diagScale scale.1 scale.2.1 scale.2.2)).transpose := by
    unfold compute_covariance_from_scale_rot
    exact symFromUpper_mul_transpose _
  refine ⟨hrw, ?_, ?_⟩
  · rw [hrw]; exact mul_transpose_symm _
  · intro x y z
    rw [hrw]
    exact qform_mul_transpose_nonneg _ x y z

/-- C5: for every scale vector, the Covariance Builder applied to the
zero-norm quaternion `(0,0,0,0)` (whose normalization is skipped by the
`norm > 0` guard, so no division by zero occurs) returns exactly the same
six covariance values as the identity quaternion `(0,0,0,1)`. -/
theorem covariance_zero_norm_quat_eq_identity (scale : ℚ × ℚ × ℚ) :
    compute_covariance_from_scale_rot scale (0, 0, 0, 0) =
      compute_covariance_from_scale_rot scale (0, 0, 0, 1) := by
  obtain ⟨s0, s1, s2⟩ := scale
  simp only [compute_covariance_from_scale_rot, quatToRotNormalized, quatToRot]
  norm_num [M3.mul, M3.transpose, diagScale, upper6]

lemma generate_isOk (pyexp : ℚ → ℚ) (atlas_size atlas_layers : Nat)
    (splats : List Splat) (h1 : 1 ≤ atlas_layers) (h64 : 64 ≤ atlas_size) :
    exceptOk (generate_texture_atlas pyexp atlas_size atlas_layers splats) = true := by
  simp only [generate_texture_atlas]
  split
  · rename_i heq
    exact absurd heq (packLoop_ne_error pyexp atlas_size atlas_layers h1 h64 _ _ _)
  · simp [exceptOk]

lemma export_assets_nil (pyexp : ℚ → ℚ) (atlas_size atlas_layers md : Nat) :
    export_assets pyexp atlas_size atlas_layers md [] =
      .ok { atlasFiles :=
              ((List.range atlas_layers).map fun _ => zeroBuf atlas_size).map
                (bufBytes atlas_size),
            octreeFile := none,
            splatFile := [.u32 0, .u32 0x53504C54],
            metadataFile :=
              { splat_count := 0, atlas_size := atlas_size,
                atlas_layers := atlas_layers, octree_nodes := 0,
                octree_depth := md } } := by
  have hgen : generate_texture_atlas pyexp atlas_size atlas_layers [] =
      .ok ⟨(List.range atlas_layers).map fun _ => zeroBuf atlas_size, [], 0⟩ := by
    simp only [generate_texture_atlas]
    rw [show List.range (List.length ([] : List Splat)) = [] from rfl,
      List.mergeSort_nil]
    rfl
  simp only [export_assets, hgen]
  rfl

/-- C1 (amended): when zero usable points survive ingestion, `export_assets`
raises no empty-dataset error and does write output: it produces
`atlas_layers` atlas files, a `scene.splat` holding only the zero splat
count and the magic constant, and metadata with `splat_count = 0` and
`octree_nodes = 0`; only the octree file is omitted, because
`build_octree_index` returns `None` for an empty splat list. -/
theorem export_empty_dataset_writes_files (pyexp : ℚ → ℚ)
    (atlas_size atlas_layers md : Nat) :
    (export_assets pyexp atlas_size atlas_layers md []).toOption.map
      (fun o => (o.atlasFiles.length, o.octreeFile, o.splatFile, o.metadataFile)) =
    some (atlas_layers, none, [PackVal.u32 0, PackVal.u32 0x53504C54],
      { splat_count := 0, atlas_size := atlas_size, atlas_layers := atlas_layers,
        octree_nodes := 0, octree_depth := md }) := by
  rw [export_assets_nil]
  simp [Except.toOption]

/-- C1 counterexample: at the concrete configuration
`atlas_size = 4, atlas_layers = 1, octree_depth = 8` and an empty splat
list, `export_assets` completes without any error (`toOption` is `some`)
and produces one atlas file and a non-empty `scene.splat`, refuting
"raises the fatal error and writes no output files". -/
theorem export_empty_dataset_no_error_cex :
    (export_assets (fun _ => 0) 4 1 8 []).toOption.map
      (fun o => (o.atlasFiles.length, o.octreeFile.isSome, o.splatFile.length)) =
    some (1, false, 2) := by
  rw [export_assets_nil]
  simp [Except.toOption]

/-- C2 (amended): the `scene.splat` stream is the 4-byte splat count, the
fixed 4-byte magic `0x53504C54`, then one fixed record per splat in list
order, laid out as 12 bytes position + 4 bytes pad, 24 bytes covariance +
8 bytes pad, 16 bytes color+alpha, and 16 bytes atlas u/v/size/layer —
which totals 80 bytes per record, not the claimed 68. -/
theorem scene_splat_record_layout :
    (∀ splats : List Splat,
      sceneSplatBytes splats =
        .u32 splats.length :: .u32 0x53504C54 :: (splats.map splatRecord).flatten ∧
      byteLen [PackVal.u32 splats.length, PackVal.u32 0x53504C54] = 8) ∧
    (∀ s : Splat,
      splatRecord s =
        posSeg s ++ padSeg4 ++ covSeg s ++ padSeg8 ++ colorAlphaSeg s ++ atlasSeg s ∧
      byteLen (posSeg s) = 12 ∧ byteLen padSeg4 = 4 ∧ byteLen (covSeg s) = 24 ∧
      byteLen padSeg8 = 8 ∧ byteLen (colorAlphaSeg s) = 16 ∧
      byteLen (atlasSeg s) = 16 ∧ byteLen (splatRecord s) = 80) := by
  constructor
  · intro splats
    exact ⟨rfl, rfl⟩
  · intro s
    refine ⟨rfl, rfl, rfl, rfl, rfl, rfl, rfl, ?_⟩
    simp [splatRecord, posSeg, padSeg4, covSeg, padSeg8, colorAlphaSeg, atlasSeg,
      byteLen, packSize]

/-- C2 counterexample: a concrete splat record (the default splat) is
12 + 4 + 24 + 8 + 16 + 16 = 80 bytes, not 68: the claimed segment widths
are the source's, but they sum to 80. -/
theorem scene_splat_record_not_68_cex :
    byteLen (splatRecord default) = 80 ∧ byteLen (splatRecord default) ≠ 68 := by
  constructor
  · decide
  · decide

/-- C3 (amended): the Atlas Packer's row-overflow check never fires — the
grid row is reduced modulo the grid height before the check — so whenever
`generate_texture_atlas` completes without an exception, every splat is
placed and the reported packed count equals the total splat count. -/
theorem packer_places_all_splats (pyexp : ℚ → ℚ) (atlas_size atlas_layers : Nat)
    (splats : List Splat) (g : GenResult)
    (h : generate_texture_atlas pyexp atlas_size atlas_layers splats = .ok g) :
    g.packed_count = splats.length :=
  generate_ok_packed pyexp atlas_size atlas_layers splats g h

/-- C3 counterexample: the claimed existence of a completed run that
leaves a nonzero fraction of splats unplaced (packed count strictly less
than the splat count) is impossible. -/
theorem atlas_underpack_impossible_cex : ¬ atlasPackerUnderpacks := by
  rintro ⟨pyexp, atlas_size, atlas_layers, splats, g, hok, hlt⟩
  have h := generate_ok_packed pyexp atlas_size atlas_layers splats g hok
  omega

/-- Witness for C3: a concrete completed run on one splat reports packed
count 1 = total count. -/
theorem packer_places_all_splats_witness :
    (generate_texture_atlas (fun _ => 0) 64 1 [default]).toOption.map
      (fun g => g.packed_count) = some 1 := by
  cases h : generate_texture_atlas (fun _ => 0) 64 1 [default] with
  | error e =>
    have hok := generate_isOk (fun _ => 0) 64 1 [default] (by norm_num) (by norm_num)
    rw [h] at hok
    exact absurd hok (by simp [exceptOk])
  | ok g =>
    have hp := packer_places_all_splats (fun _ => 0) 64 1 [default] g h
    simp [Except.toOption, hp]

/-- C8 (amended): `generate_texture_atlas` never raises provided at least
one atlas layer is configured and the atlas edge is at least 64 pixels
(so every clamped tile fits); with `atlas_layers = 0` (or an atlas smaller
than a splat's tile) the source divides by zero, see the counterexample. -/
theorem generate_atlas_never_raises (pyexp : ℚ → ℚ)
    (atlas_size atlas_layers : Nat) (splats : List Splat)
    (h1 : 1 ≤ atlas_layers) (h64 : 64 ≤ atlas_size) :
    exceptOk (generate_texture_atlas pyexp atlas_size atlas_layers splats) = true :=
  generate_isOk pyexp atlas_size atlas_layers splats h1 h64

/-- C8 counterexample: with `atlas_layers = 0` and a single splat the
packing loop evaluates `i % atlas_layers` with a zero divisor and raises
`ZeroDivisionError`, refuting "never raises for every configured
atlas_size and atlas_layers". -/
theorem generate_atlas_raises_on_zero_layers_cex :
    exceptOk (generate_texture_atlas (fun _ => 0) 1024 0 [default]) = false := by
  have hr : List.mergeSort (List.range (List.length ([default] : List Splat)))
      (fun a b => decide
        (maxScale (([default] : List Splat).getD b default) ≤
          maxScale (([default] : List Splat).getD a default))) = [0] := by
    rw [show List.range (List.length ([default] : List Splat)) = [0] from rfl]
    exact List.mergeSort_singleton 0
  simp only [generate_texture_atlas, hr]
  rfl

/-- Witness for C8: the no-exception theorem applied at the concrete
configuration `atlas_size = 64, atlas_layers = 1` on one splat. -/
theorem generate_atlas_never_raises_witness :
    (1 ≤ 1 ∧ 64 ≤ 64) ∧
      exceptOk (generate_texture_atlas (fun _ => 0) 64 1 [default]) = true :=
  ⟨⟨by norm_num, by norm_num⟩,
    generate_atlas_never_raises (fun _ => 0) 64 1 [default] (by norm_num) (by norm_num)⟩

lemma buildOctreeRec_wf (positions : List V3) (n : Nat) :
    ∀ (remaining : Nat) (idxs : List Nat) (minP maxP : V3),
    (∀ i ∈ idxs, i < n) →
    OctWF n (buildOctreeRec positions idxs minP maxP remaining) := by
  intro remaining
  induction remaining with
  | zero =>
    intro idxs minP maxP h
    simp only [buildOctreeRec]
    exact OctWF.leaf _ _ (by rw [List.length_take]; exact min_le_left _ _)
      (fun i hi => h i (List.mem_of_mem_take hi))
  | succ r ih =>
    intro idxs minP maxP h
    simp only [buildOctreeRec]
    split
    · exact OctWF.leaf _ _ (by rw [List.length_take]; exact min_le_left _ _)
        (fun i hi => h i (List.mem_of_mem_take hi))
    · refine OctWF.internal _ _ (by simp) ?_
      intro c hc t hct
      obtain ⟨octant, hoct, hfc⟩ := List.mem_map.mp hc
      subst hfc
      split at hct
      · exact Option.noConfusion hct
      · cases hct
        exact ih _ _ _ (fun i hi => h i (List.mem_filter.mp hi).1)

lemma build_octree_index_ok (md : Nat) (splats : List Splat)
    (arr : List FlatNode) (h : build_octree_index md splats = some arr) :
    ∀ j, j < arr.length →
      flatNodeOk splats.length j arr.length (arr.getD j (.leaf 0 [] [])) := by
  simp only [build_octree_index] at h
  split at h
  · exact Option.noConfusion h
  · rename_i minp maxp heq
    cases h
    intro j hj
    have hwf := buildOctreeRec_wf (splats.map Splat.pos) splats.length md
      (List.range splats.length) minp maxp (fun i hi => List.mem_range.mp hi)
    have hs := flattenOctree_spec _ [] splats.length hwf
    exact hs.2.2.2 j (by simp) hj

/-- C6: in the flattened octree array produced for any non-empty splat
list, every leaf has `splat_count ≤ 8` with its fixed 8-slot index array
zero-padded beyond the count, and every internal node's 8 child slots hold
either `-1` or a valid index into the same array that is strictly greater
than the node's own index (pre-order: children follow their parent). -/
theorem flattened_octree_invariants (md : Nat) (splats : List Splat)
    (arr : List FlatNode) (h : build_octree_index md splats = some arr)
    (j : Nat) (hj : j < arr.length) :
    flatNodeOk splats.length j arr.length (arr.getD j (.leaf 0 [] [])) :=
  build_octree_index_ok md splats arr h j hj

/-- Witness for C6: the octree built from one splat at the origin is a
single leaf with count 1, zero-padded slots, and the invariant holds. -/
theorem flattened_octree_invariants_witness :
    build_octree_index 8 [default] =
      some [FlatNode.leaf 1 [0, 0, 0, 0, 0, 0, 0, 0] [0, 0, 0, 0, 0, 0]] ∧
    flatNodeOk ([(default : Splat)].length) 0
      ([FlatNode.leaf 1 [0, 0, 0, 0, 0, 0, 0, 0] [0, 0, 0, 0, 0, 0]].length)
      ([FlatNode.leaf 1 [0, 0, 0, 0, 0, 0, 0, 0] [0, 0, 0, 0, 0, 0]].getD 0
        (.leaf 0 [] [])) :=
  ⟨by with_unfolding_all rfl,
    flattened_octree_invariants 8 [default] _ (by with_unfolding_all rfl) 0
      (by decide)⟩

/-- C7 (amended): the octree root bounds form a cube around the center of
the axis-aligned bounding box: on every axis the extent equals `11/10`
times the maximum axis extent of the bounding box (not that axis's own
extent), and the box center is preserved per axis. -/
theorem root_bounds_cube (p : V3) (rest : List V3) (mn mx : V3)
    (h : octreeRootBounds (p :: rest) = some (mn, mx)) (a : Fin 3) :
    mx.get a - mn.get a =
      11 / 10 * max ((rest.foldl vmax p).x - (rest.foldl vmin p).x)
        (max ((rest.foldl vmax p).y - (rest.foldl vmin p).y)
          ((rest.foldl vmax p).z - (rest.foldl vmin p).z)) ∧
    mn.get a + mx.get a =
      (rest.foldl vmin p).get a + (rest.foldl vmax p).get a := by
  simp only [octreeRootBounds, Option.some.injEq, Prod.mk.injEq] at h
  obtain ⟨h1, h2⟩ := h
  subst h1
  subst h2
  fin_cases a <;> constructor <;> (simp only [V3.get]; ring)

/-- C7 counterexample: for positions `(0,0,0)` and `(1,2,4)` the root box
extent on the x-axis is `22/5` (1.1 times the *maximum* extent 4), not
`11/10 = 1.1` times that axis's own min-to-max extent `1`. -/
theorem root_bounds_not_per_axis_cex :
    (octreeRootBounds [⟨0, 0, 0⟩, ⟨1, 2, 4⟩]).map
      (fun b => b.2.x - b.1.x) = some (22 / 5) ∧
    (22 / 5 : ℚ) ≠ 11 / 10 * (1 - 0) := by
  constructor
  · with_unfolding_all rfl
  · norm_num

/-- Witness for C7: the cube theorem applied to the positions `(0,0,0)`
and `(1,2,4)` on axis 0. -/
theorem root_bounds_cube_witness :
    octreeRootBounds [⟨0, 0, 0⟩, ⟨1, 2, 4⟩] =
      some (⟨-17/10, -6/5, -1/5⟩, ⟨27/10, 16/5, 21/5⟩) ∧
    ((⟨27/10, 16/5, 21/5⟩ : V3).get 0 - (⟨-17/10, -6/5, -1/5⟩ : V3).get 0 =
        11 / 10 *
          max ((([⟨1, 2, 4⟩] : List V3).foldl vmax ⟨0, 0, 0⟩).x -
              (([⟨1, 2, 4⟩] : List V3).foldl vmin ⟨0, 0, 0⟩).x)
            (max ((([⟨1, 2, 4⟩] : List V3).foldl vmax ⟨0, 0, 0⟩).y -
                (([⟨1, 2, 4⟩] : List V3).foldl vmin ⟨0, 0, 0⟩).y)
              ((([⟨1, 2, 4⟩] : List V3).foldl vmax ⟨0, 0, 0⟩).z -
                (([⟨1, 2, 4⟩] : List V3).foldl vmin ⟨0, 0, 0⟩).z)) ∧
      (⟨-17/10, -6/5, -1/5⟩ : V3).get 0 + (⟨27/10, 16/5, 21/5⟩ : V3).get 0 =
        (([⟨1, 2, 4⟩] : List V3).foldl vmin ⟨0, 0, 0⟩).get 0 +
        (([⟨1, 2, 4⟩] : List V3).foldl vmax ⟨0, 0, 0⟩).get 0) := by
  have hb : octreeRootBounds [⟨0, 0, 0⟩, ⟨1, 2, 4⟩] =
      some (⟨-17/10, -6/5, -1/5⟩, ⟨27/10, 16/5, 21/5⟩) := by
    with_unfolding_all rfl
  exact ⟨hb, root_bounds_cube ⟨0, 0, 0⟩ [⟨1, 2, 4⟩] _ _ hb 0⟩

lemma and_two_pow_eq (x k : Nat) :
    x &&& 2 ^ k = if x.testBit k then 2 ^ k else 0 := by
  apply Nat.eq_of_testBit_eq
  intro i
  by_cases hik : k = i
  · subst hik
    by_cases h : x.testBit k <;> simp [Nat.testBit_and, Nat.testBit_two_pow_self, h]
  · by_cases h : x.testBit k <;>
      simp [Nat.testBit_and, Nat.testBit_two_pow_of_ne hik, h]

lemma flip_same_bit (o k : Nat) :
    ((o ^^^ 1 <<< k) &&& 1 <<< k = 0) ↔ ¬(o &&& 1 <<< k = 0) := by
  rw [Nat.one_shiftLeft, and_two_pow_eq, and_two_pow_eq, Nat.testBit_xor,
    Nat.testBit_two_pow_self]
  cases hob : o.testBit k <;> simp [hob, (Nat.two_pow_pos k).ne']

lemma flip_other_bit (o k m : Nat) (h : k ≠ m) :
    (o ^^^ 1 <<< k) &&& 1 <<< m = o &&& 1 <<< m := by
  rw [Nat.one_shiftLeft, Nat.one_shiftLeft, and_two_pow_eq, and_two_pow_eq,
    Nat.testBit_xor, Nat.testBit_two_pow_of_ne h, Bool.xor_false]

lemma same_axis_flip (o k mask : Nat) (hm : mask = 1 <<< k)
    (lo hi cc pv : ℚ) (h2 : 2 * cc = lo + hi)
    (hlo : (if o &&& mask ≠ 0 then cc else lo) ≤ pv)
    (hhi : pv ≤ (if o &&& mask ≠ 0 then hi else cc))
    (hp : pv = cc) :
    (if (o ^^^ 1 <<< k) &&& mask ≠ 0 then cc else lo) ≤ pv ∧
      pv ≤ (if (o ^^^ 1 <<< k) &&& mask ≠ 0 then hi else cc) := by
  subst hm
  by_cases ho : o &&& 1 <<< k ≠ 0
  · have hf : ¬((o ^^^ 1 <<< k) &&& 1 <<< k ≠ 0) := fun hcon =>
      hcon ((flip_same_bit o k).mpr ho)
    rw [if_pos ho] at hlo hhi
    rw [if_neg hf, if_neg hf]
    constructor <;> linarith
  · have hf : (o ^^^ 1 <<< k) &&& 1 <<< k ≠ 0 := fun hcon =>
      ho ((flip_same_bit o k).mp hcon)
    rw [if_neg ho] at hlo hhi
    rw [if_pos hf, if_pos hf]
    constructor <;> linarith

lemma other_axis_flip (o k mask m : Nat) (hm : mask = 1 <<< m) (hk : k ≠ m)
    (vt ve : ℚ) :
    (if (o ^^^ 1 <<< k) &&& mask ≠ 0 then vt else ve) =
      (if o &&& mask ≠ 0 then vt else ve) := by
  subst hm
  rw [flip_other_bit o k m hk]

/-- C9: octant membership is inclusive at both ends, so a splat lying
exactly on a splitting plane (its coordinate on some axis equals the
node's center on that axis) that is a candidate of one octant is also a
candidate of the touching octant across that plane (the octant index with
that axis's bit flipped) — boundary points are double-counted. -/
theorem boundary_point_in_touching_octants
    (positions : List V3) (splat_indices : List Nat) (minP maxP : V3)
    (idx octant : Nat) (axis : Fin 3) (hoct : octant < 8)
    (hmem : idx ∈ octantCandidates positions splat_indices
      (octantBounds minP maxP (nodeCenter minP maxP) octant).1
      (octantBounds minP maxP (nodeCenter minP maxP) octant).2)
    (hplane : (positions.getD idx ⟨0, 0, 0⟩).get axis =
      (nodeCenter minP maxP).get axis) :
    idx ∈ octantCandidates positions splat_indices
      (octantBounds minP maxP (nodeCenter minP maxP)
        (octant ^^^ (1 <<< axis.val))).1
      (octantBounds minP maxP (nodeCenter minP maxP)
        (octant ^^^ (1 <<< axis.val))).2 := by
  obtain ⟨hin, hdec⟩ := List.mem_filter.mp hmem
  rw [decide_eq_true_eq] at hdec
  refine List.mem_filter.mpr ⟨hin, decide_eq_true ?_⟩
  obtain ⟨g1, g2, g3, g4, g5, g6⟩ := hdec
  simp only [octantBounds, inOctant] at g1 g2 g3 g4 g5 g6 ⊢
  have hcx : 2 * (nodeCenter minP maxP).x = minP.x + maxP.x := by
    simp [nodeCenter]; ring
  have hcy : 2 * (nodeCenter minP maxP).y = minP.y + maxP.y := by
    simp [nodeCenter]; ring
  have hcz : 2 * (nodeCenter minP maxP).z = minP.z + maxP.z := by
    simp [nodeCenter]; ring
  fin_cases axis
  · dsimp only at hplane ⊢
    have hA := same_axis_flip octant 0 1 rfl minP.x maxP.x
      (nodeCenter minP maxP).x ((positions.getD idx ⟨0, 0, 0⟩).x) hcx g1 g2 hplane
    refine ⟨hA.1, hA.2, ?_, ?_, ?_, ?_⟩
    · rw [other_axis_flip octant 0 2 1 rfl (by decide)]
      exact g3
    · rw [other_axis_flip octant 0 2 1 rfl (by decide)]
      exact g4
    · rw [other_axis_flip octant 0 4 2 rfl (by decide)]
      exact g5
    · rw [other_axis_flip octant 0 4 2 rfl (by decide)]
      exact g6
  · dsimp only at hplane ⊢
    have hA := same_axis_flip octant 1 2 rfl minP.y maxP.y
      (nodeCenter minP maxP).y ((positions.getD idx ⟨0, 0, 0⟩).y) hcy g3 g4 hplane
    refine ⟨?_, ?_, hA.1, hA.2, ?_, ?_⟩
    · rw [other_axis_flip octant 1 1 0 rfl (by decide)]
      exact g1
    · rw [other_axis_flip octant 1 1 0 rfl (by decide)]
      exact g2
    · rw [other_axis_flip octant 1 4 2 rfl (by decide)]
      exact g5
    · rw [other_axis_flip octant 1 4 2 rfl (by decide)]
      exact g6
  · dsimp only at hplane ⊢
    have hA := same_axis_flip octant 2 4 rfl minP.z maxP.z
      (nodeCenter minP maxP).z ((positions.getD idx ⟨0, 0, 0⟩).z) hcz g5 g6 hplane
    refine ⟨?_, ?_, ?_, ?_, hA.1, hA.2⟩
    · rw [other_axis_flip octant 2 1 0 rfl (by decide)]
      exact g1
    · rw [other_axis_flip octant 2 1 0 rfl (by decide)]
      exact g2
    · rw [other_axis_flip octant 2 2 1 rfl (by decide)]
      exact g3
    · rw [other_axis_flip octant 2 2 1 rfl (by decide)]
      exact g4

/-- Witness for C9: in the unit-ish box `[0,2]³` the point `(1,1,1)` lies
on the x splitting plane; being a candidate of octant 0 it is also a
candidate of the touching octant 1. -/
theorem boundary_point_in_touching_octants_witness :
    (0 ∈ octantCandidates [⟨1, 1, 1⟩] [0]
      (octantBounds ⟨0, 0, 0⟩ ⟨2, 2, 2⟩ (nodeCenter ⟨0, 0, 0⟩ ⟨2, 2, 2⟩) 0).1
      (octantBounds ⟨0, 0, 0⟩ ⟨2, 2, 2⟩ (nodeCenter ⟨0, 0, 0⟩ ⟨2, 2, 2⟩) 0).2) ∧
    0 ∈ octantCandidates [⟨1, 1, 1⟩] [0]
      (octantBounds ⟨0, 0, 0⟩ ⟨2, 2, 2⟩ (nodeCenter ⟨0, 0, 0⟩ ⟨2, 2, 2⟩)
        (0 ^^^ (1 <<< (0 : Fin 3).val))).1
      (octantBounds ⟨0, 0, 0⟩ ⟨2, 2, 2⟩ (nodeCenter ⟨0, 0, 0⟩ ⟨2, 2, 2⟩)
        (0 ^^^ (1 <<< (0 : Fin 3).val))).2 :=
  ⟨by with_unfolding_all decide,
    boundary_point_in_touching_octants [⟨1, 1, 1⟩] [0] ⟨0, 0, 0⟩ ⟨2, 2, 2⟩ 0 0 0
      (by decide) (by with_unfolding_all decide) (by with_unfolding_all decide)⟩

/-- C10: the canonical splat list keeps its ingestion order end to end:
the packer returns a list of the same length whose records differ from the
input only in the atlas fields (it sorts separately and mutates the shared
records in place), the `scene.splat` stream is the records of that list in
order after the splat-count header, and every leaf index stored in the
octree built over the packed list is a valid index into the canonical
order. -/
theorem canonical_order_preserved (pyexp : ℚ → ℚ)
    (atlas_size atlas_layers md : Nat) (splats : List Splat) (g : GenResult)
    (hg : generate_texture_atlas pyexp atlas_size atlas_layers splats = .ok g) :
    g.splats.length = splats.length ∧
    (∀ k : Nat, sameCore (g.splats.getD k default) (splats.getD k default)) ∧
    sceneSplatBytes g.splats =
      .u32 splats.length :: .u32 0x53504C54 :: (g.splats.map splatRecord).flatten ∧
    ∀ arr, build_octree_index md g.splats = some arr →
      ∀ j, j < arr.length →
        leafIdxBound splats.length (arr.getD j (.leaf 0 [] [])) := by
  obtain ⟨hlen, hcore⟩ := generate_ok_core pyexp atlas_size atlas_layers splats g hg
  refine ⟨hlen, hcore, ?_, ?_⟩
  · simp only [sceneSplatBytes, hlen]
  · intro arr harr j hj
    have hok := build_octree_index_ok md g.splats arr harr j hj
    rw [hlen] at hok
    cases hget : arr.getD j (.leaf 0 [] []) with
    | leaf c idxs b =>
      rw [hget] at hok
      exact hok.2.2.2
    | internal offs b =>
      exact trivial

/-- Witness for C10: a concrete packed run on one splat keeps length 1 and
the original position at index 0. -/
theorem canonical_order_preserved_witness :
    (generate_texture_atlas (fun _ => 0) 64 1 [default]).toOption.map
      (fun g => (g.splats.length, (g.splats.getD 0 default).pos)) =
      some (1, ⟨0, 0, 0⟩) := by
  cases h : generate_texture_atlas (fun _ => 0) 64 1 [default] with
  | error e =>
    have hok := generate_isOk (fun _ => 0) 64 1 [default] (by norm_num) (by norm_num)
    rw [h] at hok
    exact absurd hok (by simp [exceptOk])
  | ok g =>
    have hc := canonical_order_preserved (fun _ => 0) 64 1 8 [default] g h
    obtain ⟨hlen, hcore, hscene, hoct⟩ := hc
    have h0 := (hcore 0).1
    show some (g.splats.length, (g.splats.getD 0 default).pos) = some (1, ⟨0, 0, 0⟩)
    rw [hlen, h0]
    rfl
